import Mathlib

/-!
Verification of the s3lite object-storage gateway against its design
specification.  The Python sources under app/ (auth.py, main.py, storage.py,
schemas.py, models.py, db.py) are shallowly embedded below: byte strings are
lists of naturals below 256, the HMAC-SHA256 primitive used by the signer is
implemented in full, HTTP handlers become pure functions from an explicit
store to a store and a response, and the blob backend and clock appear as
explicit parameters.
-/

set_option maxRecDepth 100000

namespace S3Lite

/-! ## SHA-256 and HMAC-SHA256 (the primitives hashlib / hmac provide) -/

/-- One 32-bit word: reduce modulo 2 to the 32. -/
def w32 (x : Nat) : Nat := x % 4294967296

def wadd (a b : Nat) : Nat := w32 (a + b)

def rotr (n x : Nat) : Nat := w32 ((x >>> n) ||| (x <<< (32 - n)))

def bigS0 (x : Nat) : Nat := (rotr 2 x) ^^^ (rotr 13 x) ^^^ (rotr 22 x)

def bigS1 (x : Nat) : Nat := (rotr 6 x) ^^^ (rotr 11 x) ^^^ (rotr 25 x)

def smallS0 (x : Nat) : Nat := (rotr 7 x) ^^^ (rotr 18 x) ^^^ (x >>> 3)

def smallS1 (x : Nat) : Nat := (rotr 17 x) ^^^ (rotr 19 x) ^^^ (x >>> 10)

def chF (x y z : Nat) : Nat := (x &&& y) ^^^ ((x ^^^ 4294967295) &&& z)

def majF (x y z : Nat) : Nat := (x &&& y) ^^^ (x &&& z) ^^^ (y &&& z)

/-- The 64 SHA-256 round constants of FIPS 180-4, written in decimal; the
test-vector theorems below check the table against the published digests. -/
def sha256K : List Nat :=
  [1116352408, 1899447441, 3049323471, 3921009573, 961987163, 1508970993,
   2453635748, 2870763221, 3624381080, 310598401, 607225278, 1426881987,
   1925078388, 2162078206, 2614888103, 3248222580, 3835390401, 4022224774,
   264347078, 604807628, 770255983, 1249150122, 1555081692, 1996064986,
   2554220882, 2821834349, 2952996808, 3210313671, 3336571891, 3584528711,
   113926993, 338241895, 666307205, 773529912, 1294757372, 1396182291,
   1695183700, 1986661051, 2177026350, 2456956037, 2730485921, 2820302411,
   3259730800, 3345764771, 3516065817, 3600352804, 4094571909, 275423344,
   430227734, 506948616, 659060556, 883997877, 958139571, 1322822218,
   1537002063, 1747873779, 1955562222, 2024104815, 2227730452, 2361852424,
   2428436474, 2756734187, 3204031479, 3329325298]

structure Hash8 where
  a : Nat
  b : Nat
  c : Nat
  d : Nat
  e : Nat
  f : Nat
  g : Nat
  h : Nat
  deriving DecidableEq, Repr

def sha256H0 : Hash8 :=
  ⟨1779033703, 3144134277, 1013904242, 2773480762, 1359893119, 2600822924, 528734635, 1541459225⟩

def round (s : Hash8) (k w : Nat) : Hash8 :=
  let t1 := wadd s.h (wadd (bigS1 s.e) (wadd (chF s.e s.f s.g) (wadd k w)))
  let t2 := wadd (bigS0 s.a) (majF s.a s.b s.c)
  ⟨wadd t1 t2, s.a, s.b, s.c, wadd s.d t1, s.e, s.f, s.g⟩

/-- Big-endian 4-byte word taken at offset 4*i of a 64-byte block. -/
def blockWord (block : List Nat) (i : Nat) : Nat :=
  (block.getD (4 * i) 0) <<< 24 ||| (block.getD (4 * i + 1) 0) <<< 16 |||
  (block.getD (4 * i + 2) 0) <<< 8 ||| (block.getD (4 * i + 3) 0)

def extendSchedule : Nat → List Nat → List Nat
  | 0, ws => ws
  | n + 1, ws =>
    let i := ws.length
    let w := wadd (wadd (smallS1 (ws.getD (i - 2) 0)) (ws.getD (i - 7) 0))
                  (wadd (smallS0 (ws.getD (i - 15) 0)) (ws.getD (i - 16) 0))
    extendSchedule n (ws ++ [w])

def msgSchedule (block : List Nat) : List Nat :=
  extendSchedule 48 ((List.range 16).map (blockWord block))

def processBlock (s : Hash8) (block : List Nat) : Hash8 :=
  let t := (sha256K.zip (msgSchedule block)).foldl (fun st kw => round st kw.1 kw.2) s
  ⟨wadd s.a t.a, wadd s.b t.b, wadd s.c t.c, wadd s.d t.d,
   wadd s.e t.e, wadd s.f t.f, wadd s.g t.g, wadd s.h t.h⟩

/-- Big-endian bytes of a 32-bit word. -/
def wordBytes (w : Nat) : List Nat :=
  [(w >>> 24) &&& 255, (w >>> 16) &&& 255, (w >>> 8) &&& 255, w &&& 255]

def Hash8.bytes (s : Hash8) : List Nat :=
  wordBytes s.a ++ wordBytes s.b ++ wordBytes s.c ++ wordBytes s.d ++
  wordBytes s.e ++ wordBytes s.f ++ wordBytes s.g ++ wordBytes s.h

/-- Big-endian byte encoding of x in n bytes. -/
def natBytesBE (n x : Nat) : List Nat :=
  (List.range n).map (fun i => (x >>> (8 * (n - 1 - i))) &&& 255)

/-- SHA-256 padding: byte 0x80, zero bytes up to 56 mod 64, then the bit
length in 8 big-endian bytes. -/
def padMessage (msg : List Nat) : List Nat :=
  msg ++ [128] ++ List.replicate ((119 - msg.length % 64) % 64) 0 ++ natBytesBE 8 (8 * msg.length)

def chunk64 : Nat → List Nat → List (List Nat)
  | 0, _ => []
  | _, [] => []
  | fuel + 1, l => l.take 64 :: chunk64 fuel (l.drop 64)

def sha256 (msg : List Nat) : List Nat :=
  let padded := padMessage msg
  ((chunk64 padded.length padded).foldl processBlock sha256H0).bytes

def hexDigitChar (n : Nat) : Char :=
  if n < 10 then Char.ofNat (48 + n) else Char.ofNat (87 + n)

/-- Lowercase hex rendering of a byte list, as hexdigest produces. -/
def bytesToHex (bs : List Nat) : String :=
  ⟨bs.foldr (fun b acc => hexDigitChar (b / 16) :: hexDigitChar (b % 16) :: acc) []⟩

/-- HMAC-SHA256 over byte lists (RFC 2104), block size 64 bytes; this is what
hmac.new(secret, msg, hashlib.sha256) computes. -/
def hmacSha256 (key msg : List Nat) : List Nat :=
  let k0 := if 64 < key.length then sha256 key ++ List.replicate 32 0
            else key ++ List.replicate (64 - key.length) 0
  let ipadded := k0.map (fun b => b ^^^ 0x36)
  let opadded := k0.map (fun b => b ^^^ 0x5c)
  sha256 (opadded ++ sha256 (ipadded ++ msg))

/-- UTF-8 encoding of a single character. -/
def charUtf8 (c : Char) : List Nat :=
  let n := c.toNat
  if n < 128 then [n]
  else if n < 2048 then [192 ||| (n >>> 6), 128 ||| (n &&& 63)]
  else if n < 65536 then [224 ||| (n >>> 12), 128 ||| ((n >>> 6) &&& 63), 128 ||| (n &&& 63)]
  else [240 ||| (n >>> 18), 128 ||| ((n >>> 12) &&& 63), 128 ||| ((n >>> 6) &&& 63), 128 ||| (n &&& 63)]

/-- UTF-8 bytes of a string, as .encode of the Python source produces. -/
def strBytes (s : String) : List Nat := (s.data.map charUtf8).flatten

/-! ## The signer (auth.py _sign, duplicated verbatim as main.py _presign_sig) -/

/-- Embeds the .upper() call on the method string: uppercase every character
(character-wise, as String.map Char.toUpper, but written directly on the
character list so that it evaluates by kernel reduction). -/
def pyUpper (s : String) : String := ⟨s.data.map Char.toUpper⟩

/-- Embeds _sign of auth.py (and the identical _presign_sig of main.py): the
canonical message is UPPERCASE(method), path, expires, content-type joined by
newlines, MACed with HMAC-SHA256 under the configured secret, hex encoded.
The secret is passed explicitly instead of read from the environment. -/
def sign (secret : String) (method : String) (path : String) (expires : Int) (ct : String) : String :=
  bytesToHex (hmacSha256 (strBytes secret)
    (strBytes (pyUpper method ++ "\n" ++ path ++ "\n" ++ toString expires ++ "\n" ++ ct)))

/-! ## Requests and the Python int() parser -/

/-- The slice of a Starlette request that auth.py consults: HTTP method, URL
path and the query parameters (first binding wins on lookup). -/
structure Request where
  method : String
  path : String
  query : List (String × String)
  deriving DecidableEq, Repr

def Request.qget (r : Request) (k : String) : Option String := r.query.lookup k

/-- Python truthiness of qp.get(...): None and the empty string are falsy. -/
def pyTruthy (o : Option String) : Bool := o.getD "" ≠ ""

def pyWhitespace (c : Char) : Bool :=
  c = ' ' ∨ c = '\t' ∨ c = '\n' ∨ c = '\x0b' ∨ c = '\x0c' ∨ c = '\r'

def digitsToNat (cs : List Char) : Nat :=
  cs.foldl (fun a c => 10 * a + (c.toNat - 48)) 0

def pyNatDigits (cs : List Char) : Option Nat :=
  if cs ≠ [] ∧ cs.all Char.isDigit then some (digitsToNat cs) else none

/-- Embeds int(s) on decimal strings: surrounding whitespace is stripped, an
optional single sign precedes a nonempty run of ASCII digits; anything else
raises ValueError, modelled as none.  (Underscore digit grouping, accepted by
the Python parser, is not modelled; no claim involves it.) -/
def pyInt (s : String) : Option Int :=
  match (s.data.dropWhile pyWhitespace).reverse.dropWhile pyWhitespace |>.reverse with
  | [] => none
  | c :: rest =>
    if c = '+' then (pyNatDigits rest).map Int.ofNat
    else if c = '-' then (pyNatDigits rest).map (fun n => -(n : Int))
    else (pyNatDigits (c :: rest)).map Int.ofNat

/-! ## The authorizer (auth.py) -/

/-- Rejection reasons raised by auth.py as HTTPException. -/
inductive AuthError
  | secretNotConfigured
  | missingParams
  | invalidExpires
  | expired
  | ctMismatch
  | invalidSignature
  | apiKeyNotConfigured
  | badApiKey
  deriving DecidableEq, Repr

def AuthError.status : AuthError → Nat
  | .secretNotConfigured => 500
  | .apiKeyNotConfigured => 500
  | _ => 401

def AuthError.detail : AuthError → String
  | .secretNotConfigured => "PRESIGN_SECRET not configured"
  | .missingParams => "Missing presign parameters"
  | .invalidExpires => "Invalid expires"
  | .expired => "Presigned URL expired"
  | .ctMismatch => "Content-Type mismatch for presigned URL"
  | .invalidSignature => "Invalid signature"
  | .apiKeyNotConfigured => "S3LITE_API_KEY not configured"
  | .badApiKey => "Missing or invalid API key"

/-- Embeds validate_presign of auth.py.  The configured PRESIGN_SECRET and the
current integer time int(time.time()) are explicit parameters; ct is the
argument the caller passes (authorize passes the ct query parameter).
hmac.compare_digest on two hex strings decides exactly their equality. -/
def validate_presign (secret : String) (now : Int) (req : Request) (ct : String) :
    Except AuthError Unit :=
  if secret = "" then .error .secretNotConfigured
  else
    let sig := req.qget "sig"
    let expiresStr := req.qget "expires"
    let signedCt := (req.qget "ct").getD ""
    if ¬ pyTruthy sig ∨ ¬ pyTruthy expiresStr then .error .missingParams
    else
      match pyInt (expiresStr.getD "") with
      | none => .error .invalidExpires
      | some expires =>
        if now > expires then .error .expired
        else if signedCt ≠ "" ∧ signedCt ≠ ct then .error .ctMismatch
        else if sign secret req.method req.path expires signedCt = sig.getD "" then .ok ()
        else .error .invalidSignature

/-- Embeds authorize of auth.py: a request carrying truthy sig and expires
query parameters is decided solely by validate_presign (called with the ct
query parameter); otherwise the X-API-Key header must equal the configured
key, with a 500 when no key is configured. -/
def authorize (apiKey : String) (secret : String) (now : Int) (req : Request)
    (xApiKey : Option String) : Except AuthError Unit :=
  if pyTruthy (req.qget "sig") ∧ pyTruthy (req.qget "expires") then
    validate_presign secret now req ((req.qget "ct").getD "")
  else if apiKey = "" then .error .apiKeyNotConfigured
  else if xApiKey = some apiKey then .ok ()
  else .error .badApiKey

/-- The request a client makes with a presigned URL built by presign_object of
main.py: the query carries expires (rendered by str), sig, and ct exactly when
a content type was signed. -/
def presignedRequest (method path : String) (expires : Int) (ct sig : String) : Request :=
  ⟨method, path,
   [("expires", toString expires), ("sig", sig)] ++ (if ct = "" then [] else [("ct", ct)])⟩

/-! ## Storage locators (storage.py) and the persistent state -/

/-- Embeds the lstrip of storage.py: Python str.lstrip removes every leading
occurrence of the slash. -/
def lstripSlash (s : String) : String := ⟨s.data.dropWhile (· = '/')⟩

/-- Embeds object_locator of storage.py: everything is stored inside one
physical backend bucket, namespaced by the logical bucket name. -/
def object_locator (bucket_name : String) (object_key : String) : String :=
  bucket_name ++ "/" ++ lstripSlash object_key

/-- One metadata row of the objects table (models.py Object); the owning
bucket is identified by its unique name rather than a surrogate id. -/
structure ObjMeta where
  bucket : String
  key : String
  size : Nat
  checksum : String
  contentType : String
  deriving DecidableEq, Repr

/-- The persistent state the handlers act on: bucket rows, object rows, and
the blob backend as an association of locator to byte content. -/
structure Store where
  buckets : List String
  objects : List ObjMeta
  blobs : List (String × List Nat)
  deriving DecidableEq, Repr

def findObject (st : Store) (b k : String) : Option ObjMeta :=
  st.objects.find? (fun o => o.bucket == b && o.key == k)

def getBlob (bl : List (String × List Nat)) (loc : String) : Option (List Nat) :=
  bl.lookup loc

def setBlob (bl : List (String × List Nat)) (loc : String) (v : List Nat) :
    List (String × List Nat) :=
  (loc, v) :: bl.filter (fun p => !(p.1 == loc))

def delBlob (bl : List (String × List Nat)) (loc : String) : List (String × List Nat) :=
  bl.filter (fun p => !(p.1 == loc))

/-! ## The streaming checksum upload loop (main.py upload_object) -/

/-- State of a hashlib.sha256 accumulator: semantically, update appends to
the absorbed byte sequence and hexdigest hashes all bytes absorbed so far. -/
structure HashCtx where
  absorbed : List Nat
  deriving DecidableEq, Repr

def HashCtx.update (h : HashCtx) (chunk : List Nat) : HashCtx := ⟨h.absorbed ++ chunk⟩

def HashCtx.hexdigest (h : HashCtx) : String := bytesToHex (sha256 h.absorbed)

/-- Embeds the while loop of upload_object: await file.read(1 MiB) yields the
given chunks in order followed by empty reads; on each nonempty chunk the
hash absorbs it, the byte counter grows, and the chunk is appended to the
temporary spool file; the first empty chunk ends the loop.  Returns the hash
state, the byte count, and the spooled bytes. -/
def readLoop : List (List Nat) → HashCtx → Nat → List Nat → HashCtx × Nat × List Nat
  | [], h, size, tmp => (h, size, tmp)
  | c :: rest, h, size, tmp =>
    if c = [] then (h, size, tmp)
    else readLoop rest (h.update c) (size + c.length) (tmp ++ c)

/-! ## The handlers (main.py) -/

/-- Embeds upload_object of main.py after its dependencies resolved: the ct
query parameter, the multipart file content type, the body chunks and the
outcome of s3.upload_fileobj are explicit.  An exception leaves the store as
it stood when raised; the error side carries the HTTP status and detail. -/
def upload_object (st : Store) (bucket_name object_key : String) (overwrite : Bool)
    (fileCt : Option String) (ctParam : String) (chunks : List (List Nat)) (blobOk : Bool) :
    Store × Except (Nat × String) ObjMeta :=
  if ctParam ≠ "" ∧ fileCt.getD "" ≠ ctParam then
    (st, .error (401, "Content-Type mismatch for presigned URL"))
  else if ¬ st.buckets.contains bucket_name then (st, .error (404, "Bucket not found"))
  else
    let existing := findObject st bucket_name object_key
    if existing.isSome ∧ ¬ overwrite then
      (st, .error (409, "Object already exists (overwrite=false)"))
    else
      let contentType := if fileCt.getD "" = "" then "application/octet-stream" else fileCt.getD ""
      let res := readLoop chunks ⟨[]⟩ 0 []
      if ¬ blobOk then (st, .error (500, "blob write failed"))
      else
        let loc := object_locator bucket_name object_key
        let st1 : Store := { st with blobs := setBlob st.blobs loc res.2.2 }
        let checksum := res.1.hexdigest
        match existing with
        | none =>
          let obj : ObjMeta := ⟨bucket_name, object_key, res.2.1, checksum, contentType⟩
          ({ st1 with objects := obj :: st1.objects }, .ok obj)
        | some old =>
          let obj : ObjMeta := { old with size := res.2.1, checksum := checksum,
                                          contentType := contentType }
          ({ st1 with objects :=
              obj :: st1.objects.filter (fun o => !(o.bucket == bucket_name && o.key == object_key)) },
           .ok obj)

/-- Embeds head_object of main.py: on success, the response headers in order
Content-Length, ETag, X-Checksum-Sha256. -/
def head_object (st : Store) (bucket_name object_key : String) :
    Except (Nat × String) (List (String × String)) :=
  if ¬ st.buckets.contains bucket_name then .error (404, "Bucket not found")
  else
    match findObject st bucket_name object_key with
    | none => .error (404, "Object not found")
    | some obj =>
      .ok [("Content-Length", toString obj.size), ("ETag", obj.checksum),
           ("X-Checksum-Sha256", obj.checksum)]

/-- Embeds download_object of main.py: same headers as head_object, plus the
media type and the streamed body, read from the blob backend at the derived
locator. -/
def download_object (st : Store) (bucket_name object_key : String) :
    Except (Nat × String) (List (String × String) × String × Option (List Nat)) :=
  if ¬ st.buckets.contains bucket_name then .error (404, "Bucket not found")
  else
    match findObject st bucket_name object_key with
    | none => .error (404, "Object not found")
    | some obj =>
      .ok ([("Content-Length", toString obj.size), ("ETag", obj.checksum),
            ("X-Checksum-Sha256", obj.checksum)],
           obj.contentType,
           getBlob st.blobs (object_locator bucket_name object_key))

/-- Embeds delete_object of main.py: blob deletion runs first; when it raises
(blobOk false) the handler aborts and the metadata row survives; on success
the row is removed and 204 returned. -/
def delete_object (st : Store) (bucket_name object_key : String) (blobOk : Bool) :
    Store × Except (Nat × String) Unit :=
  if ¬ st.buckets.contains bucket_name then (st, .error (404, "Bucket not found"))
  else if (findObject st bucket_name object_key).isNone then
    (st, .error (404, "Object not found"))
  else if ¬ blobOk then (st, .error (500, "blob delete failed"))
  else
    let st1 : Store := { st with blobs := delBlob st.blobs (object_locator bucket_name object_key) }
    ({ st1 with objects :=
        st1.objects.filter (fun o => !(o.bucket == bucket_name && o.key == object_key)) },
     .ok ())

/-- The PUT endpoint as served: the authorize dependency runs first (raising
its status and detail on failure), then the handler body. -/
def handle_put (apiKey secret : String) (now : Int) (req : Request) (xApiKey : Option String)
    (st : Store) (bucket_name object_key : String) (overwrite : Bool)
    (fileCt : Option String) (chunks : List (List Nat)) (blobOk : Bool) :
    Store × Except (Nat × String) ObjMeta :=
  match authorize apiKey secret now req xApiKey with
  | .error e => (st, .error (e.status, e.detail))
  | .ok _ =>
    upload_object st bucket_name object_key overwrite fileCt ((req.qget "ct").getD "") chunks blobOk

/-- Well-formedness invariant of the write path: every metadata row points at
a blob present in the backend under its derived locator. -/
def Store.wf (st : Store) : Prop :=
  ∀ o ∈ st.objects, (getBlob st.blobs (object_locator o.bucket o.key)).isSome

/-! ## Helper lemmas: decimal rendering of integers parses back with pyInt -/

theorem toDigitsCore_append (b : Nat) : ∀ (f n : Nat) (acc : List Char),
    Nat.toDigitsCore b f n acc = Nat.toDigitsCore b f n [] ++ acc := by
  intro f
  induction f with
  | zero => intro n acc; rfl
  | succ f ih =>
    intro n acc
    simp only [Nat.toDigitsCore]
    by_cases h : n / b = 0
    · simp [h]
    · simp only [h, if_false]
      rw [ih (n / b) (Nat.digitChar (n % b) :: acc), ih (n / b) [Nat.digitChar (n % b)]]
      simp

theorem digitChar_isDigit {n : Nat} (h : n < 10) : (Nat.digitChar n).isDigit = true := by
  interval_cases n <;> decide

theorem digitChar_toNat {n : Nat} (h : n < 10) : (Nat.digitChar n).toNat - 48 = n := by
  interval_cases n <;> decide

theorem toDigitsCore_isDigit : ∀ (f n : Nat), ∀ c ∈ Nat.toDigitsCore 10 f n [], c.isDigit = true := by
  intro f
  induction f with
  | zero => intro n c hc; simp [Nat.toDigitsCore] at hc
  | succ f ih =>
    intro n c hc
    simp only [Nat.toDigitsCore] at hc
    by_cases h : n / 10 = 0
    · simp [h] at hc
      exact hc ▸ digitChar_isDigit (Nat.mod_lt n (by norm_num))
    · simp only [h, if_false] at hc
      rw [toDigitsCore_append 10 f (n / 10) [Nat.digitChar (n % 10)]] at hc
      rcases List.mem_append.1 hc with h1 | h2
      · exact ih (n / 10) c h1
      · simp at h2
        exact h2 ▸ digitChar_isDigit (Nat.mod_lt n (by norm_num))

theorem toDigitsCore_ne_nil (f n : Nat) : Nat.toDigitsCore 10 (f + 1) n [] ≠ [] := by
  simp only [Nat.toDigitsCore]
  by_cases h : n / 10 = 0
  · simp [h]
  · simp only [h, if_false]
    rw [toDigitsCore_append 10 f (n / 10) [Nat.digitChar (n % 10)]]
    simp

theorem digitsToNat_append (l : List Char) (c : Char) :
    digitsToNat (l ++ [c]) = 10 * digitsToNat l + (c.toNat - 48) := by
  simp [digitsToNat, List.foldl_append]

theorem toDigitsCore_val : ∀ (f n : Nat), n < f → digitsToNat (Nat.toDigitsCore 10 f n []) = n := by
  intro f
  induction f with
  | zero => intro n hn; omega
  | succ f ih =>
    intro n hn
    simp only [Nat.toDigitsCore]
    by_cases h : n / 10 = 0
    · have hlt : n < 10 := by omega
      have hmod : n % 10 = n := Nat.mod_eq_of_lt hlt
      simp [h, digitsToNat, hmod, digitChar_toNat hlt]
    · have h10 : 10 ≤ n := by
        rcases Nat.lt_or_ge n 10 with hl | hg
        · exact absurd (Nat.div_eq_of_lt hl) h
        · exact hg
      have hrec : n / 10 < f := by
        have := Nat.div_lt_self (by omega : 0 < n) (by norm_num : 1 < 10)
        omega
      simp only [h, if_false]
      rw [toDigitsCore_append 10 f (n / 10) [Nat.digitChar (n % 10)], digitsToNat_append,
          ih (n / 10) hrec, digitChar_toNat (Nat.mod_lt n (by norm_num))]
      omega

theorem not_ws_of_isDigit {c : Char} (h : c.isDigit = true) : pyWhitespace c = false := by
  revert h
  simp only [pyWhitespace, Char.isDigit, decide_eq_true_eq, Bool.and_eq_true,
             decide_eq_false_iff_not]
  rintro ⟨h1, h2⟩ (rfl | rfl | rfl | rfl | rfl | rfl) <;> simp_all

theorem dropWhile_ws_of_digits {l : List Char} (h : ∀ c ∈ l, c.isDigit = true) :
    l.dropWhile pyWhitespace = l := by
  cases l with
  | nil => rfl
  | cons c t => simp [List.dropWhile_cons, not_ws_of_isDigit (h c (by simp))]

theorem pyInt_of_digits (s : String) (hne : s.data ≠ []) (h : ∀ c ∈ s.data, c.isDigit = true) :
    pyInt s = some (Int.ofNat (digitsToNat s.data)) := by
  unfold pyInt
  rw [dropWhile_ws_of_digits h,
      dropWhile_ws_of_digits (fun c hc => h c (List.mem_reverse.1 hc)), List.reverse_reverse]
  cases hd : s.data with
  | nil => exact absurd hd hne
  | cons c t =>
    have hc : c.isDigit = true := h c (by rw [hd]; simp)
    have hplus : ¬ c = '+' := by rintro rfl; simp at hc
    have hminus : ¬ c = '-' := by rintro rfl; simp at hc
    simp only [hplus, hminus, if_false]
    have hall : (c :: t).all Char.isDigit = true := by
      rw [List.all_eq_true]
      intro x hx
      exact h x (by rw [hd]; exact hx)
    simp [pyNatDigits, hall]

theorem pyInt_natRepr (n : Nat) : pyInt (Nat.repr n) = some (Int.ofNat n) := by
  have hdata : (Nat.repr n).data = Nat.toDigitsCore 10 (n + 1) n [] := rfl
  rw [pyInt_of_digits (Nat.repr n) (by rw [hdata]; exact toDigitsCore_ne_nil n n)
      (by rw [hdata]; exact toDigitsCore_isDigit (n + 1) n),
      hdata, toDigitsCore_val (n + 1) n (Nat.lt_succ_self n)]

theorem toString_negSucc_data (m : Nat) :
    (toString (Int.negSucc m)).data = '-' :: Nat.toDigitsCore 10 (m + 2) (m + 1) [] := by
  show (("-" : String) ++ Nat.repr (m + 1)).data = _
  rw [String.data_append]
  rfl

theorem pyInt_toString_int (e : Int) : pyInt (toString e) = some e := by
  cases e with
  | ofNat n => exact pyInt_natRepr n
  | negSucc m =>
    have hddig : ∀ c ∈ Nat.toDigitsCore 10 (m + 2) (m + 1) [], c.isDigit = true :=
      toDigitsCore_isDigit (m + 2) (m + 1)
    have hdne : Nat.toDigitsCore 10 (m + 2) (m + 1) [] ≠ [] := toDigitsCore_ne_nil (m + 1) (m + 1)
    unfold pyInt
    rw [toString_negSucc_data m]
    rw [show (('-' :: Nat.toDigitsCore 10 (m + 2) (m + 1) []).dropWhile pyWhitespace) =
        '-' :: Nat.toDigitsCore 10 (m + 2) (m + 1) [] by
      simp [List.dropWhile_cons, show pyWhitespace (Char.ofNat 45) = false from rfl]]
    rw [List.reverse_cons]
    rw [show ((Nat.toDigitsCore 10 (m + 2) (m + 1) []).reverse ++ ['-']).dropWhile pyWhitespace =
        (Nat.toDigitsCore 10 (m + 2) (m + 1) []).reverse ++ ['-'] by
      cases hr : (Nat.toDigitsCore 10 (m + 2) (m + 1) []).reverse with
      | nil => exact absurd (List.reverse_eq_nil_iff.1 hr) hdne
      | cons c t =>
        have hc : c.isDigit = true := by
          apply hddig
          have : c ∈ (Nat.toDigitsCore 10 (m + 2) (m + 1) []).reverse := by rw [hr]; simp
          exact List.mem_reverse.1 this
        simp [List.dropWhile_cons, not_ws_of_isDigit hc]]
    rw [List.reverse_append, List.reverse_reverse]
    have hall : (Nat.toDigitsCore 10 (m + 2) (m + 1) []).all Char.isDigit = true := by
      rw [List.all_eq_true]; exact fun c hc => hddig c hc
    simp only [List.reverse_cons, List.reverse_nil, List.nil_append, List.singleton_append]
    rw [show pyNatDigits (Nat.toDigitsCore 10 (m + 2) (m + 1) []) = some (m + 1) by
      simp [pyNatDigits, hdne, hall,
            toDigitsCore_val (m + 2) (m + 1) (by omega)]]
    simp [Int.negSucc_eq, show ¬('-' : Char) = '+' by decide]

theorem string_ne_empty_of_data {s : String} (h : s.data ≠ []) : s ≠ "" := by
  intro he
  apply h
  rw [he]

theorem toString_int_ne_empty (e : Int) : toString e ≠ "" := by
  cases e with
  | ofNat n =>
    exact string_ne_empty_of_data (toDigitsCore_ne_nil n n)
  | negSucc m =>
    apply string_ne_empty_of_data
    rw [toString_negSucc_data m]
    simp

theorem bytesToHex_ne_empty {bs : List Nat} (h : bs ≠ []) : bytesToHex bs ≠ "" := by
  cases bs with
  | nil => exact absurd rfl h
  | cons b t =>
    apply string_ne_empty_of_data
    simp [bytesToHex]

theorem hmacSha256_ne_nil (k m : List Nat) : hmacSha256 k m ≠ [] := by
  simp [hmacSha256, sha256, Hash8.bytes, wordBytes]

theorem sign_ne_empty (secret method path : String) (e : Int) (ct : String) :
    sign secret method path e ct ≠ "" :=
  bytesToHex_ne_empty (hmacSha256_ne_nil _ _)

theorem presignedRequest_qget_sig (method path : String) (e : Int) (ct sig : String) :
    (presignedRequest method path e ct sig).qget "sig" = some sig := by
  by_cases h : ct = "" <;>
    simp [presignedRequest, Request.qget, List.lookup, h,
          show (("sig" : String) == "expires") = false from rfl,
          show (("sig" : String) == "sig") = true from rfl]

theorem presignedRequest_qget_expires (method path : String) (e : Int) (ct sig : String) :
    (presignedRequest method path e ct sig).qget "expires" = some (toString e) := by
  by_cases h : ct = "" <;>
    simp [presignedRequest, Request.qget, List.lookup, h,
          show (("expires" : String) == "expires") = true from rfl]

theorem presignedRequest_qget_ct (method path : String) (e : Int) (ct sig : String) :
    ((presignedRequest method path e ct sig).qget "ct").getD "" = ct := by
  by_cases h : ct = "" <;>
    simp [presignedRequest, Request.qget, List.lookup, h,
          show (("ct" : String) == "expires") = false from rfl,
          show (("ct" : String) == "sig") = false from rfl,
          show (("ct" : String) == "ct") = true from rfl]

/-! ## Sanity checks: the SHA-256 and HMAC implementations reproduce the
standard test vectors -/

theorem sha256_empty_vector :
    bytesToHex (sha256 (strBytes ""))
      = "e3b0c44298fc1c149afbf4c8996fb92427ae41e4649b934ca495991b7852b855" := by decide

theorem sha256_hello_vector :
    bytesToHex (sha256 (strBytes "hello"))
      = "2cf24dba5fb0a30e26e83b2ac5b9e29e1b161e5c1fa7425e73043362938b9824" := by decide

theorem hmac_sha256_rfc4231_case2 :
    bytesToHex (hmacSha256 (strBytes "Jefe") (strBytes "what do ya want for nothing?"))
      = "5bdcc146bf60754e6a042426089575c75a003f089d2739839dec58b964ec3843" := by decide

/-! ## Claim theorems -/

/-- C1: for every (method, path, expires, content type) tuple with method GET
or PUT, the signature produced by the signing function over the
newline-joined message is accepted by presigned verification for a request
with the same method, path, unexpired expires and signed content type, while
every supplied signature different from the expected one makes verification
fail. -/
theorem presign_sign_verify (secret method path ct : String) (expires now : Int)
    (sigSupplied : String) (hsec : secret ≠ "") (_hm : method = "GET" ∨ method = "PUT")
    (hnow : now ≤ expires) :
    validate_presign secret now
        (presignedRequest method path expires ct (sign secret method path expires ct)) ct
      = .ok ()
    ∧ (sigSupplied ≠ sign secret method path expires ct →
        validate_presign secret now (presignedRequest method path expires ct sigSupplied) ct
          ≠ .ok ()) := by
  constructor
  · unfold validate_presign
    rw [if_neg hsec]
    simp only [presignedRequest_qget_sig, presignedRequest_qget_expires, presignedRequest_qget_ct]
    simp only [pyTruthy, Option.getD_some]
    rw [if_neg (by
      simp [sign_ne_empty secret method path expires ct, toString_int_ne_empty expires])]
    rw [pyInt_toString_int expires]
    simp only [presignedRequest]
    simp [show ¬ now > expires by omega]
  · intro hne hok
    unfold validate_presign at hok
    rw [if_neg hsec] at hok
    simp only [presignedRequest_qget_sig, presignedRequest_qget_expires,
               presignedRequest_qget_ct] at hok
    simp only [pyTruthy, Option.getD_some] at hok
    by_cases hs : sigSupplied = ""
    · rw [if_pos (by simp [hs])] at hok
      exact Except.noConfusion hok
    · rw [if_neg (by simp [hs, toString_int_ne_empty expires])] at hok
      rw [pyInt_toString_int expires] at hok
      simp only [presignedRequest] at hok
      simp [show ¬ now > expires by omega,
            show ¬ sign secret method path expires ct = sigSupplied from
              fun h => hne h.symm] at hok

/-- Witness for C1 at a concrete tuple: a PUT presigned for path
/buckets/docs/objects/a/b.txt, expiring at 1000 and checked at 999. -/
theorem presign_sign_verify_witness :
    validate_presign "s3cr3t" 999
        (presignedRequest "PUT" "/buckets/docs/objects/a/b.txt" 1000 "text/plain"
          (sign "s3cr3t" "PUT" "/buckets/docs/objects/a/b.txt" 1000 "text/plain")) "text/plain"
      = .ok ()
    ∧ validate_presign "s3cr3t" 999
        (presignedRequest "PUT" "/buckets/docs/objects/a/b.txt" 1000 "text/plain" "deadbeef")
        "text/plain" ≠ .ok () := by
  have hd : ("deadbeef" : String) ≠
      sign "s3cr3t" "PUT" "/buckets/docs/objects/a/b.txt" 1000 "text/plain" := by decide
  constructor
  · exact (presign_sign_verify "s3cr3t" "PUT" "/buckets/docs/objects/a/b.txt" "text/plain"
      1000 999 "deadbeef" (by decide) (Or.inr rfl) (by decide)).1
  · exact (presign_sign_verify "s3cr3t" "PUT" "/buckets/docs/objects/a/b.txt" "text/plain"
      1000 999 "deadbeef" (by decide) (Or.inr rfl) (by decide)).2 hd

/-- C2: on the presigned path (truthy sig and expires), authorization is
exactly presigned verification, which succeeds precisely when sig and expires
are present, expires parses as an integer, now is at most expires, the
content-type constraint carried by the grant is satisfied, and the recomputed
signature matches; an expired URL is rejected as expired (401), and that
check precedes the signature comparison, so the outcome is the same whatever
signature is supplied. -/
theorem presign_validation_characterization
    (apiKey secret : String) (now : Int) (req : Request) (ct : String)
    (xApiKey : Option String) (hsec : secret ≠ "") :
    (validate_presign secret now req ct = .ok () ↔
      (pyTruthy (req.qget "sig") = true ∧ pyTruthy (req.qget "expires") = true ∧
        ∃ e : Int, pyInt ((req.qget "expires").getD "") = some e ∧ now ≤ e ∧
          ((req.qget "ct").getD "" ≠ "" → (req.qget "ct").getD "" = ct) ∧
          sign secret req.method req.path e ((req.qget "ct").getD "") = (req.qget "sig").getD ""))
    ∧ (∀ e : Int, pyTruthy (req.qget "sig") = true →
        pyInt ((req.qget "expires").getD "") = some e → now > e →
        validate_presign secret now req ct = .error .expired)
    ∧ AuthError.expired.status = 401
    ∧ (pyTruthy (req.qget "sig") = true → pyTruthy (req.qget "expires") = true →
        authorize apiKey secret now req xApiKey
          = validate_presign secret now req ((req.qget "ct").getD "")) := by
  refine ⟨⟨?_, ?_⟩, ?_, rfl, ?_⟩
  · intro hok
    unfold validate_presign at hok
    rw [if_neg hsec] at hok
    by_cases h12 : ¬ pyTruthy (req.qget "sig") = true ∨ ¬ pyTruthy (req.qget "expires") = true
    · rw [if_pos h12] at hok
      exact absurd hok (by simp)
    · push_neg at h12
      rw [if_neg (by simp [h12.1, h12.2])] at hok
      split at hok
      · exact absurd hok (by simp)
      · rename_i e hp
        split at hok
        · exact absurd hok (by simp)
        · rename_i h3
          split at hok
          · exact absurd hok (by simp)
          · rename_i h4
            split at hok
            · rename_i h5
              exact ⟨h12.1, h12.2, e, hp, by omega, fun hne => by tauto, h5⟩
            · exact absurd hok (by simp)
  · rintro ⟨h1, h2, e, hp, hle, hct, hsig⟩
    unfold validate_presign
    rw [if_neg hsec, if_neg (by simp [h1, h2]), hp]
    show (if now > e then Except.error AuthError.expired
      else if (req.qget "ct").getD "" ≠ "" ∧ (req.qget "ct").getD "" ≠ ct then
        Except.error AuthError.ctMismatch
      else if sign secret req.method req.path e ((req.qget "ct").getD "")
          = (req.qget "sig").getD "" then Except.ok ()
      else Except.error AuthError.invalidSignature) = Except.ok ()
    rw [if_neg (by omega : ¬ now > e),
        if_neg (by rintro ⟨hne, hneq⟩; exact hneq (hct hne)), if_pos hsig]
  · intro e h1 hp hgt
    have h2 : pyTruthy (req.qget "expires") = true := by
      simp only [pyTruthy, ne_eq, decide_eq_true_eq]
      intro heq
      rw [heq] at hp
      exact absurd hp (by simp [pyInt])
    unfold validate_presign
    rw [if_neg hsec, if_neg (by simp [h1, h2]), hp]
    show (if now > e then Except.error AuthError.expired
      else if (req.qget "ct").getD "" ≠ "" ∧ (req.qget "ct").getD "" ≠ ct then
        Except.error AuthError.ctMismatch
      else if sign secret req.method req.path e ((req.qget "ct").getD "")
          = (req.qget "sig").getD "" then Except.ok ()
      else Except.error AuthError.invalidSignature) = Except.error AuthError.expired
    rw [if_pos hgt]
  · intro h1 h2
    unfold authorize
    rw [if_pos ⟨h1, h2⟩]

/-- Witness for C2: a presigned GET checked at time 500 against expires 100
is rejected as expired even though a (garbage) signature is supplied. -/
theorem presign_validation_characterization_witness :
    validate_presign "s3c" 500
        (Request.mk "GET" "/buckets/b/objects/o" [("sig", "ff"), ("expires", "100")]) ""
      = .error .expired :=
  (presign_validation_characterization "key" "s3c" 500
      (Request.mk "GET" "/buckets/b/objects/o" [("sig", "ff"), ("expires", "100")]) ""
      none (by decide)).2.1 100 (by decide) (by decide) (by decide)

/-- C4: a request carrying truthy sig and expires query parameters is decided
exclusively by presigned verification and the API key header is never
consulted; any other request is decided by the static key: 500 when no key is
configured, success exactly when the header equals the key, 401 otherwise. -/
theorem authorize_dispatch (apiKey secret : String) (now : Int) (req : Request)
    (xApiKey : Option String) :
    (pyTruthy (req.qget "sig") = true → pyTruthy (req.qget "expires") = true →
      (authorize apiKey secret now req xApiKey
          = validate_presign secret now req ((req.qget "ct").getD "")
        ∧ ∀ k : Option String, authorize apiKey secret now req k
            = authorize apiKey secret now req xApiKey))
    ∧ (¬ (pyTruthy (req.qget "sig") = true ∧ pyTruthy (req.qget "expires") = true) →
        ((apiKey = "" →
            authorize apiKey secret now req xApiKey = .error .apiKeyNotConfigured
            ∧ AuthError.apiKeyNotConfigured.status = 500)
         ∧ (apiKey ≠ "" →
            (authorize apiKey secret now req xApiKey = .ok () ↔ xApiKey = some apiKey)
            ∧ (xApiKey ≠ some apiKey →
                authorize apiKey secret now req xApiKey = .error .badApiKey
                ∧ AuthError.badApiKey.status = 401)))) := by
  constructor
  · intro h1 h2
    constructor
    · unfold authorize
      rw [if_pos ⟨h1, h2⟩]
    · intro k
      unfold authorize
      rw [if_pos ⟨h1, h2⟩, if_pos ⟨h1, h2⟩]
  · intro h12
    constructor
    · intro hk
      refine ⟨?_, rfl⟩
      unfold authorize
      rw [if_neg h12, if_pos hk]
    · intro hk
      constructor
      · constructor
        · intro hok
          unfold authorize at hok
          rw [if_neg h12, if_neg hk] at hok
          by_cases hx : xApiKey = some apiKey
          · exact hx
          · rw [if_neg hx] at hok
            exact absurd hok (by simp)
        · intro hx
          unfold authorize
          rw [if_neg h12, if_neg hk, if_pos hx]
      · intro hx
        refine ⟨?_, rfl⟩
        unfold authorize
        rw [if_neg h12, if_neg hk, if_neg hx]

/-- Witness for C4: a request with sig and expires is delegated to presigned
verification; a request without them succeeds on a matching API key header. -/
theorem authorize_dispatch_witness :
    authorize "k1" "sec" 0 (Request.mk "GET" "/p" [("sig", "x"), ("expires", "5")]) none
      = validate_presign "sec" 0 (Request.mk "GET" "/p" [("sig", "x"), ("expires", "5")]) ""
    ∧ authorize "k1" "sec" 0 (Request.mk "GET" "/p" []) (some "k1") = .ok () :=
  ⟨((authorize_dispatch "k1" "sec" 0 (Request.mk "GET" "/p" [("sig", "x"), ("expires", "5")])
      none).1 (by decide) (by decide)).1,
   ((((authorize_dispatch "k1" "sec" 0 (Request.mk "GET" "/p" []) (some "k1")).2
      (by decide)).2 (by decide)).1).2 rfl⟩

/-- C10: when the sig or the expires query parameter is present but empty,
the presigned path is not taken and the request is decided by the static API
key header, succeeding exactly on a match. -/
theorem authorize_empty_presign_param (apiKey secret : String) (now : Int) (req : Request)
    (xApiKey : Option String)
    (h : req.qget "sig" = some "" ∨ req.qget "expires" = some "") :
    authorize apiKey secret now req xApiKey
      = (if apiKey = "" then .error .apiKeyNotConfigured
         else if xApiKey = some apiKey then .ok () else .error .badApiKey)
    ∧ (apiKey ≠ "" → xApiKey = some apiKey →
        authorize apiKey secret now req xApiKey = .ok ()) := by
  have hfalse : ¬ (pyTruthy (req.qget "sig") = true ∧ pyTruthy (req.qget "expires") = true) := by
    rintro ⟨h1, h2⟩
    rcases h with h | h
    · rw [h] at h1
      simp [pyTruthy] at h1
    · rw [h] at h2
      simp [pyTruthy] at h2
  constructor
  · unfold authorize
    rw [if_neg hfalse]
  · intro hk hx
    unfold authorize
    rw [if_neg hfalse, if_neg hk, if_pos hx]

/-- Witness for C10: sig present but empty, expires nonempty; the request is
authorized by the API key header. -/
theorem authorize_empty_presign_param_witness :
    authorize "k" "s" 0 (Request.mk "GET" "/p" [("sig", ""), ("expires", "123")]) (some "k")
      = .ok () :=
  (authorize_empty_presign_param "k" "s" 0
      (Request.mk "GET" "/p" [("sig", ""), ("expires", "123")]) (some "k")
      (Or.inl (by decide))).2 (by decide) rfl

/-! ## Helper lemmas: association lists, the read loop, locator lists -/

theorem find?_filter_not {α : Type} (l : List α) (p : α → Bool) :
    (l.filter (fun x => !(p x))).find? p = none := by
  induction l with
  | nil => rfl
  | cons a t ih =>
    by_cases h : p a
    · simp [List.filter_cons, h, ih]
    · simp only [List.filter_cons, h, Bool.not_false, if_true]
      simp [List.find?_cons, h, ih]

theorem lookup_filter_self (bl : List (String × List Nat)) (loc : String) :
    (bl.filter (fun p => !(p.1 == loc))).lookup loc = none := by
  induction bl with
  | nil => rfl
  | cons a t ih =>
    obtain ⟨k, v⟩ := a
    by_cases h : k = loc
    · simp [List.filter_cons, h, ih]
    · have h2 : (loc == k) = false := by simp [Ne.symm h]
      simp [List.filter_cons, h, List.lookup, h2, ih]

theorem lookup_filter_other {bl : List (String × List Nat)} {loc loc2 : String}
    (h : loc2 ≠ loc) :
    (bl.filter (fun p => !(p.1 == loc))).lookup loc2 = bl.lookup loc2 := by
  induction bl with
  | nil => rfl
  | cons a t ih =>
    obtain ⟨k, v⟩ := a
    by_cases hk : k = loc
    · have h2 : (loc2 == k) = false := by simp [hk, h]
      simp [List.filter_cons, hk, List.lookup, h2, ih,
            show (loc2 == loc) = false by simp [h]]
    · simp only [List.filter_cons, show (k == loc) = false by simp [hk], Bool.not_false, if_true]
      by_cases he : loc2 = k
      · simp [List.lookup, he]
      · simp [List.lookup, show (loc2 == k) = false by simp [he], ih]

theorem getBlob_setBlob_same (bl : List (String × List Nat)) (loc : String) (v : List Nat) :
    getBlob (setBlob bl loc v) loc = some v := by
  simp [getBlob, setBlob, List.lookup]

theorem getBlob_setBlob_isSome {bl : List (String × List Nat)} {loc2 : String}
    (loc : String) (v : List Nat) (h : (getBlob bl loc2).isSome = true) :
    (getBlob (setBlob bl loc v) loc2).isSome = true := by
  by_cases he : loc2 = loc
  · subst he
    simp [getBlob_setBlob_same]
  · simp only [getBlob, setBlob, List.lookup, show (loc2 == loc) = false by simp [he]]
    rw [lookup_filter_other he]
    exact h

theorem getBlob_delBlob (bl : List (String × List Nat)) (loc : String) :
    getBlob (delBlob bl loc) loc = none := by
  simp [getBlob, delBlob, lookup_filter_self]

theorem readLoop_spec : ∀ (chunks : List (List Nat)) (h : HashCtx) (n : Nat) (t : List Nat),
    (∀ c ∈ chunks, c ≠ []) →
    readLoop chunks h n t
      = (⟨h.absorbed ++ chunks.flatten⟩, n + chunks.flatten.length, t ++ chunks.flatten) := by
  intro chunks
  induction chunks with
  | nil => intro h n t _; simp [readLoop]
  | cons c rest ih =>
    intro h n t hne
    have hc : ¬ c = [] := hne c (List.mem_cons_self c rest)
    rw [readLoop, if_neg hc, ih (h.update c) (n + c.length) (t ++ c)
        (fun d hd => hne d (List.mem_cons_of_mem c hd))]
    simp [HashCtx.update, List.append_assoc]
    omega

theorem append_slash_inj : ∀ (a1 : List Char) {a2 k1 k2 : List Char},
    ('/' : Char) ∉ a1 → ('/' : Char) ∉ a2 →
    a1 ++ '/' :: k1 = a2 ++ '/' :: k2 → a1 = a2 ∧ k1 = k2 := by
  intro a1
  induction a1 with
  | nil =>
    intro a2 k1 k2 _ h2 h
    cases a2 with
    | nil => simpa using h
    | cons b bs =>
      simp only [List.nil_append, List.cons_append, List.cons.injEq] at h
      exact absurd (h.1 ▸ List.mem_cons_self b bs) h2
  | cons a as ih =>
    intro a2 k1 k2 h1 h2 h
    cases a2 with
    | nil =>
      simp only [List.nil_append, List.cons_append, List.cons.injEq] at h
      exact absurd (h.1 ▸ List.mem_cons_self a as) h1
    | cons b bs =>
      simp only [List.cons_append, List.cons.injEq] at h
      obtain ⟨rfl, ht⟩ := h
      obtain ⟨he, hk⟩ := ih (fun hm => h1 (List.mem_cons_of_mem a hm))
        (fun hm => h2 (List.mem_cons_of_mem a hm)) ht
      exact ⟨by rw [he], hk⟩

/-- C5: a PUT of an existing key with overwrite disabled returns the 409
conflict with the store untouched; the outcome is independent of the body
chunks and of the blob backend, so the conflict is decided before any byte is
streamed, and the object found afterwards (hence its checksum) is the one
found before. -/
theorem upload_conflict_no_overwrite (st : Store) (b k : String) (fileCt : Option String)
    (ctParam : String) (chunks : List (List Nat)) (blobOk : Bool)
    (hct : ¬ (ctParam ≠ "" ∧ fileCt.getD "" ≠ ctParam))
    (hb : st.buckets.contains b = true)
    (hex : (findObject st b k).isSome = true) :
    upload_object st b k false fileCt ctParam chunks blobOk
      = (st, .error (409, "Object already exists (overwrite=false)"))
    ∧ (∀ (chunks2 : List (List Nat)) (blobOk2 : Bool),
        upload_object st b k false fileCt ctParam chunks2 blobOk2
          = upload_object st b k false fileCt ctParam chunks blobOk)
    ∧ findObject (upload_object st b k false fileCt ctParam chunks blobOk).1 b k
        = findObject st b k := by
  have key : ∀ (cs : List (List Nat)) (bo : Bool),
      upload_object st b k false fileCt ctParam cs bo
        = (st, .error (409, "Object already exists (overwrite=false)")) := by
    intro cs bo
    simp only [upload_object]
    rw [if_neg hct, if_neg (by simp only [not_not]; exact hb), if_pos ⟨hex, by simp⟩]
  exact ⟨key chunks blobOk,
         fun c2 b2 => (key c2 b2).trans (key chunks blobOk).symm,
         by rw [key chunks blobOk]⟩

/-- Witness for C5: re-uploading key o in bucket dox with overwrite false is
rejected with 409 and the store is unchanged. -/
theorem upload_conflict_no_overwrite_witness :
    upload_object
        (Store.mk ["dox"] [ObjMeta.mk "dox" "o" 1 "aa" "text/plain"] [("dox/o", [7])])
        "dox" "o" false none "" [[1, 2]] true
      = (Store.mk ["dox"] [ObjMeta.mk "dox" "o" 1 "aa" "text/plain"] [("dox/o", [7])],
         .error (409, "Object already exists (overwrite=false)")) :=
  (upload_conflict_no_overwrite
    (Store.mk ["dox"] [ObjMeta.mk "dox" "o" 1 "aa" "text/plain"] [("dox/o", [7])])
    "dox" "o" none "" [[1, 2]] true (by decide) (by decide) (by decide)).1

/-- C7: when the blob write fails, the upload handler leaves the store (in
particular every metadata row) unchanged and reports an error; and the
handler preserves the invariant that every metadata row points at an existing
blob, whatever the blob write outcome. -/
theorem blob_write_failure_preserves_metadata (st : Store) (b k : String) (ow : Bool)
    (fileCt : Option String) (ctParam : String) (chunks : List (List Nat)) :
    (upload_object st b k ow fileCt ctParam chunks false).1 = st
    ∧ (∃ e, (upload_object st b k ow fileCt ctParam chunks false).2 = .error e)
    ∧ (∀ blobOk : Bool, st.wf → ((upload_object st b k ow fileCt ctParam chunks blobOk).1).wf) := by
  have key : ∃ e, upload_object st b k ow fileCt ctParam chunks false = (st, .error e) := by
    simp only [upload_object]
    split
    · exact ⟨_, rfl⟩
    · split
      · exact ⟨_, rfl⟩
      · split
        · exact ⟨_, rfl⟩
        · rw [if_pos (by simp)]
          exact ⟨_, rfl⟩
  obtain ⟨e, he⟩ := key
  refine ⟨by rw [he], ⟨e, by rw [he]⟩, ?_⟩
  intro blobOk hwf
  simp only [upload_object]
  split
  · exact hwf
  · split
    · exact hwf
    · split
      · exact hwf
      · split
        · exact hwf
        · split
          · rename_i hfind
            intro o ho
            rcases List.mem_cons.1 ho with rfl | ho2
            · simp [getBlob_setBlob_same]
            · exact getBlob_setBlob_isSome _ _ (hwf o ho2)
          · rename_i old hfind
            intro o ho
            rcases List.mem_cons.1 ho with rfl | ho2
            · obtain ⟨hob, hok⟩ : old.bucket = b ∧ old.key = k := by
                have hp := List.find?_some (by simpa [findObject] using hfind)
                simpa using hp
              simp [hob, hok, getBlob_setBlob_same]
            · exact getBlob_setBlob_isSome _ _ (hwf o (List.mem_of_mem_filter ho2))

/-- Witness for C7: with bucket b1 present, a failed blob write changes
nothing; a successful upload preserves the metadata-blob invariant. -/
theorem blob_write_failure_preserves_metadata_witness :
    (upload_object (Store.mk ["b1"] [] []) "b1" "k" true none "" [[1]] false).1
      = Store.mk ["b1"] [] []
    ∧ ((upload_object (Store.mk ["b1"] [] []) "b1" "k" true none "" [[1]] true).1).wf :=
  ⟨(blob_write_failure_preserves_metadata (Store.mk ["b1"] [] []) "b1" "k" true none "" [[1]]).1,
   (blob_write_failure_preserves_metadata (Store.mk ["b1"] [] []) "b1" "k" true none
      "" [[1]]).2.2 true (by intro o ho; simp at ho)⟩

/-- C8: deleting a missing object under an existing bucket is a 404 that
changes nothing; when the object exists, a failed blob deletion aborts the
handler before the metadata row is touched; on success the blob and the row
are both gone and a subsequent download is a 404. -/
theorem delete_object_semantics (st : Store) (b k : String) :
    (st.buckets.contains b = true → findObject st b k = none →
      ∀ blobOk : Bool, delete_object st b k blobOk = (st, .error (404, "Object not found")))
    ∧ ((findObject st b k).isSome = true →
        (delete_object st b k false).1 = st
        ∧ ∃ e, (delete_object st b k false).2 = .error e)
    ∧ (st.buckets.contains b = true → (findObject st b k).isSome = true →
        (delete_object st b k true).2 = .ok ()
        ∧ getBlob (delete_object st b k true).1.blobs (object_locator b k) = none
        ∧ findObject (delete_object st b k true).1 b k = none
        ∧ download_object (delete_object st b k true).1 b k
            = .error (404, "Object not found")) := by
  refine ⟨?_, ?_, ?_⟩
  · intro hb hnone blobOk
    simp only [delete_object]
    rw [if_neg (by simp only [not_not]; exact hb), if_pos (by simp [hnone])]
  · intro _
    have key : ∃ e, delete_object st b k false = (st, .error e) := by
      simp only [delete_object]
      split
      · exact ⟨_, rfl⟩
      · split
        · exact ⟨_, rfl⟩
        · rw [if_pos (by simp)]
          exact ⟨_, rfl⟩
    obtain ⟨e, he⟩ := key
    exact ⟨by rw [he], e, by rw [he]⟩
  · intro hb hsome
    obtain ⟨old, hold⟩ := Option.isSome_iff_exists.1 hsome
    have hdel : delete_object st b k true
        = (Store.mk st.buckets
            (st.objects.filter (fun o => !(o.bucket == b && o.key == k)))
            (delBlob st.blobs (object_locator b k)), .ok ()) := by
      simp only [delete_object, hold]
      rw [if_neg (by simp only [not_not]; exact hb), if_neg (by simp), if_neg (by simp)]
    have hf : findObject
        (Store.mk st.buckets
          (st.objects.filter (fun o => !(o.bucket == b && o.key == k)))
          (delBlob st.blobs (object_locator b k))) b k = none :=
      find?_filter_not st.objects _
    refine ⟨by rw [hdel], ?_, ?_, ?_⟩
    · rw [hdel]
      exact getBlob_delBlob st.blobs (object_locator b k)
    · rw [hdel]
      exact hf
    · rw [hdel]
      simp only [download_object]
      rw [if_neg (by simp only [not_not]; exact hb), hf]

/-- Witness for C8: deleting the only object of bucket bu removes row and
blob, and a second delete of the same key under bu is a 404. -/
theorem delete_object_semantics_witness :
    (delete_object (Store.mk ["bu"] [ObjMeta.mk "bu" "o" 1 "cc" "t"] [("bu/o", [9])])
        "bu" "o" true).2 = .ok ()
    ∧ findObject
        (delete_object (Store.mk ["bu"] [ObjMeta.mk "bu" "o" 1 "cc" "t"] [("bu/o", [9])])
          "bu" "o" true).1 "bu" "o" = none
    ∧ delete_object (Store.mk ["bu"] [] []) "bu" "o" true
        = (Store.mk ["bu"] [] [], .error (404, "Object not found")) :=
  ⟨((delete_object_semantics
      (Store.mk ["bu"] [ObjMeta.mk "bu" "o" 1 "cc" "t"] [("bu/o", [9])]) "bu" "o").2.2
      (by decide) (by decide)).1,
   ((delete_object_semantics
      (Store.mk ["bu"] [ObjMeta.mk "bu" "o" 1 "cc" "t"] [("bu/o", [9])]) "bu" "o").2.2
      (by decide) (by decide)).2.2.1,
   (delete_object_semantics (Store.mk ["bu"] [] []) "bu" "o").1 (by decide) (by decide) true⟩

/-- C9 counterexample: the locator map is not injective on all (bucket, key)
pairs: under bucket abc, keys /k and k collide because every leading slash is
stripped. -/
theorem object_locator_not_injective :
    object_locator "abc" "/k" = object_locator "abc" "k"
    ∧ ("abc", "/k") ≠ (("abc", "k") : String × String) := by
  constructor
  · decide
  · decide

/-- C9 amended: the locator is the bucket name and the key joined by a slash
after stripping the leading slashes of the key, and two pairs share a locator
exactly when the bucket names agree and the stripped keys agree, provided the
bucket names contain no slash; injectivity on arbitrary keys fails, as keys
differing only in leading slashes collide. -/
theorem object_locator_injective_amended (b1 b2 k1 k2 : String)
    (h1 : ('/' : Char) ∉ b1.data) (h2 : ('/' : Char) ∉ b2.data) :
    object_locator b1 k1 = b1 ++ "/" ++ lstripSlash k1
    ∧ (object_locator b1 k1 = object_locator b2 k2 ↔
        b1 = b2 ∧ lstripSlash k1 = lstripSlash k2) := by
  refine ⟨rfl, ?_, ?_⟩
  · intro h
    have hd := congrArg String.data h
    simp only [object_locator, String.data_append] at hd
    rw [List.append_assoc, List.append_assoc] at hd
    have hsep := append_slash_inj b1.data h1 h2 (by simpa using hd)
    exact ⟨String.ext hsep.1, String.ext hsep.2⟩
  · rintro ⟨rfl, hk⟩
    simp only [object_locator, hk]

/-- Witness for C9 amended: distinct slash-free buckets and keys yield
distinct locators, and equal inputs equal locators. -/
theorem object_locator_injective_amended_witness :
    (object_locator "docs" "a/b.txt" = "docs" ++ "/" ++ lstripSlash "a/b.txt")
    ∧ (object_locator "docs" "a/b.txt" = object_locator "docs" "a/b.txt" ↔
        ("docs" : String) = "docs" ∧ lstripSlash "a/b.txt" = lstripSlash "a/b.txt") :=
  object_locator_injective_amended "docs" "docs" "a/b.txt" "a/b.txt"
    (by decide) (by decide)

/-- C6: a successful upload over nonempty chunks of at most 1 MiB records as
size the byte length of the whole payload and as checksum the hex SHA-256 of
the whole payload, computed in one pass; HEAD and GET on the stored object
then expose that checksum as ETag and X-Checksum-Sha256 with Content-Length
equal to the recorded size, and GET streams back the payload. -/
theorem upload_records_size_and_checksum (st st2 : Store) (b k : String) (ow : Bool)
    (fileCt : Option String) (ctParam : String) (chunks : List (List Nat)) (obj : ObjMeta)
    (hne : ∀ c ∈ chunks, c ≠ [])
    (_hsz : ∀ c ∈ chunks, c.length ≤ 1048576)
    (h : upload_object st b k ow fileCt ctParam chunks true = (st2, .ok obj)) :
    obj.size = chunks.flatten.length
    ∧ obj.checksum = bytesToHex (sha256 chunks.flatten)
    ∧ head_object st2 b k = .ok [("Content-Length", toString obj.size),
        ("ETag", obj.checksum), ("X-Checksum-Sha256", obj.checksum)]
    ∧ download_object st2 b k = .ok ([("Content-Length", toString obj.size),
        ("ETag", obj.checksum), ("X-Checksum-Sha256", obj.checksum)], obj.contentType,
        some chunks.flatten) := by
  simp only [upload_object] at h
  rw [readLoop_spec chunks ⟨[]⟩ 0 [] hne] at h
  simp only [List.nil_append, Nat.zero_add] at h
  split at h
  · simp at h
  · split at h
    · simp at h
    · rename_i hbuc
      have hb : st.buckets.contains b = true := by
        by_contra hc
        exact hbuc (by simpa using hc)
      split at h
      · simp at h
      · split at h
        · rename_i hblob
          exact absurd trivial hblob
        · split at h
          · rename_i hfind
            rw [Prod.mk.injEq] at h
            obtain ⟨hst, hobj⟩ := h
            injection hobj with hobj
            subst hobj
            subst hst
            refine ⟨rfl, rfl, ?_, ?_⟩
            · simp only [head_object]
              rw [if_neg (by simp only [not_not]; exact hb)]
              simp [findObject, List.find?_cons]
            · simp only [download_object]
              rw [if_neg (by simp only [not_not]; exact hb)]
              simp [findObject, List.find?_cons, getBlob_setBlob_same]
          · rename_i old hfind
            obtain ⟨hob, hok⟩ : old.bucket = b ∧ old.key = k := by
              have hp := List.find?_some (by simpa [findObject] using hfind)
              simpa using hp
            rw [Prod.mk.injEq] at h
            obtain ⟨hst, hobj⟩ := h
            injection hobj with hobj
            subst hobj
            subst hst
            refine ⟨rfl, rfl, ?_, ?_⟩
            · simp only [head_object]
              rw [if_neg (by simp only [not_not]; exact hb)]
              simp [findObject, List.find?_cons, hob, hok]
            · simp only [download_object]
              rw [if_neg (by simp only [not_not]; exact hb)]
              simp [findObject, List.find?_cons, hob, hok, getBlob_setBlob_same]

/-- Witness for C6: uploading hello to docs/a/b.txt records size 5 and the
SHA-256 hex digest of hello. -/
theorem upload_records_size_and_checksum_witness :
    (ObjMeta.mk "docs" "a/b.txt" 5
        "2cf24dba5fb0a30e26e83b2ac5b9e29e1b161e5c1fa7425e73043362938b9824" "text/plain").size
      = ([[104, 101, 108, 108, 111]] : List (List Nat)).flatten.length
    ∧ (ObjMeta.mk "docs" "a/b.txt" 5
        "2cf24dba5fb0a30e26e83b2ac5b9e29e1b161e5c1fa7425e73043362938b9824" "text/plain").checksum
      = bytesToHex (sha256 ([[104, 101, 108, 108, 111]] : List (List Nat)).flatten) := by
  have key := upload_records_size_and_checksum
    (Store.mk ["docs"] [] [])
    (Store.mk ["docs"]
      [ObjMeta.mk "docs" "a/b.txt" 5
        "2cf24dba5fb0a30e26e83b2ac5b9e29e1b161e5c1fa7425e73043362938b9824" "text/plain"]
      [("docs/a/b.txt", [104, 101, 108, 108, 111])])
    "docs" "a/b.txt" true (some "text/plain") "" [[104, 101, 108, 108, 111]]
    (ObjMeta.mk "docs" "a/b.txt" 5
      "2cf24dba5fb0a30e26e83b2ac5b9e29e1b161e5c1fa7425e73043362938b9824" "text/plain")
    (by decide) (by decide) (by rfl)
  exact ⟨key.1, key.2.1⟩

/-- C3 counterexample: a presigned PUT signed for text/plain with a valid
signature passes the authorizer even though the actual upload content type
is application/json (the authorizer never sees the actual content type), and
with an invalid signature the rejection is the signature check rather than a
content-type mismatch: the mismatch rejection is therefore not an authorizer
step preceding signature recomputation. -/
theorem presign_ct_check_not_in_authorizer :
    authorize "apikey" "topsecret" 1000
        (presignedRequest "PUT" "/buckets/docs/objects/k" 2000000000 "text/plain"
          (sign "topsecret" "PUT" "/buckets/docs/objects/k" 2000000000 "text/plain")) none
      = .ok ()
    ∧ (handle_put "apikey" "topsecret" 1000
          (presignedRequest "PUT" "/buckets/docs/objects/k" 2000000000 "text/plain"
            (sign "topsecret" "PUT" "/buckets/docs/objects/k" 2000000000 "text/plain")) none
          (Store.mk ["docs"] [] []) "docs" "k" true (some "application/json") [[104]] true).2
        = .error (401, "Content-Type mismatch for presigned URL")
    ∧ authorize "apikey" "topsecret" 1000
        (presignedRequest "PUT" "/buckets/docs/objects/k" 2000000000 "text/plain" "00") none
      = .error .invalidSignature := by
  refine ⟨by rfl, by rfl, by rfl⟩

/-- C3 amended: with a signed content type present, an upload whose actual
content type differs is rejected with the 401 content-type mismatch and a
matching one is never rejected on that ground; but the rejection happens in
the upload handler after authorization has already succeeded, not as an
authorizer step: the authorizer, as invoked, can never reject for
content-type mismatch. -/
theorem upload_ct_binding (apiKey secret : String) (now : Int) (req : Request)
    (xkey : Option String) (st : Store) (b k : String) (ow : Bool) (fileCt : Option String)
    (chunks : List (List Nat)) (blobOk : Bool)
    (hauth : authorize apiKey secret now req xkey = .ok ())
    (hct : (req.qget "ct").getD "" ≠ "") :
    (fileCt.getD "" ≠ (req.qget "ct").getD "" →
      handle_put apiKey secret now req xkey st b k ow fileCt chunks blobOk
        = (st, .error (401, "Content-Type mismatch for presigned URL")))
    ∧ (fileCt.getD "" = (req.qget "ct").getD "" →
        (handle_put apiKey secret now req xkey st b k ow fileCt chunks blobOk).2
          ≠ .error (401, "Content-Type mismatch for presigned URL"))
    ∧ (∀ (s : String) (n : Int) (r : Request),
        validate_presign s n r ((r.qget "ct").getD "") ≠ .error .ctMismatch) := by
  refine ⟨?_, ?_, ?_⟩
  · intro hne
    simp only [handle_put, hauth]
    simp only [upload_object]
    rw [if_pos ⟨hct, hne⟩]
  · intro heq
    simp only [handle_put, hauth]
    simp only [upload_object]
    rw [if_neg (by rintro ⟨h1, h2⟩; exact h2 heq)]
    split
    · simp
    · split
      · simp
      · split
        · simp
        · split
          · simp
          · simp
  · intro s n r hctm
    simp only [validate_presign] at hctm
    split at hctm
    · simp at hctm
    · split at hctm
      · simp at hctm
      · split at hctm
        · simp at hctm
        · split at hctm
          · simp at hctm
          · split at hctm
            · rename_i h4
              exact h4.2 rfl
            · split at hctm
              · simp at hctm
              · simp at hctm

/-- Witness for C3 amended: the concrete mismatched upload from the
counterexample scenario is rejected by the handler with the 401 content-type
mismatch while authorization already succeeded. -/
theorem upload_ct_binding_witness :
    handle_put "apikey" "topsecret" 1000
        (presignedRequest "PUT" "/buckets/docs/objects/k" 2000000000 "text/plain"
          (sign "topsecret" "PUT" "/buckets/docs/objects/k" 2000000000 "text/plain")) none
        (Store.mk ["docs"] [] []) "docs" "k" true (some "application/json") [[104]] true
      = (Store.mk ["docs"] [] [], .error (401, "Content-Type mismatch for presigned URL")) :=
  (upload_ct_binding "apikey" "topsecret" 1000
      (presignedRequest "PUT" "/buckets/docs/objects/k" 2000000000 "text/plain"
        (sign "topsecret" "PUT" "/buckets/docs/objects/k" 2000000000 "text/plain")) none
      (Store.mk ["docs"] [] []) "docs" "k" true (some "application/json") [[104]] true
      (by rfl) (by decide)).1 (by decide)

end S3Lite
